import Mathlib

/-!
Verification development for the AI_Engineering_Hands-On repository.

The Python sources are shallowly embedded in Lean:
* Python strings are `List Char` (`Str`); the repository's data and the
  inputs exercised here are ASCII, so `str.lower` is `Char.toLower` and
  `str.strip` drops the ASCII whitespace characters.
* Python dicts (in insertion order) are association lists.
* Functions that can raise return `Except PyErr _`; a raw `d[k]` dict
  subscript is the fallible `dictIndex`, a guarded access stays total.
* CPython `float` arithmetic on the pricing tables is embedded exactly:
  each multiplier is the integer mantissa of its IEEE-754 double scaled by
  2^52, products are rounded to nearest-even at the double's precision and
  then truncated, as `int(base * multiplier)` does.
-/

set_option maxRecDepth 100000

/-- Python strings, embedded as lists of characters. -/
abbrev Str := List Char

/-- Coerce a Lean string literal to the embedding's string type. -/
def pyStr (s : String) : Str := s.data

/-- The ASCII whitespace characters stripped by Python's `str.strip()`. -/
def isPySpace (c : Char) : Bool :=
  c = ' ' || c = '\t' || c = '\n' || c = '\r' || c = '\x0b' || c = '\x0c'

/-- Python `s.strip()`: drop leading and trailing whitespace. -/
def pyStrip (s : Str) : Str :=
  ((s.dropWhile isPySpace).reverse.dropWhile isPySpace).reverse

/-- Python `s.lower()` on ASCII text. -/
def pyLower (s : Str) : Str := s.map Char.toLower

/-- Python's `needle in hay` substring test. -/
def pyIn (needle : Str) : Str → Bool
  | [] => needle.isEmpty
  | c :: rest => needle.isPrefixOf (c :: rest) || pyIn needle rest

/-- Python dicts in insertion order: association lists keyed by strings. -/
abbrev Dict (α : Type) := List (Str × α)

/-- First value bound to `key`, scanning in insertion order. -/
def dictGet {α : Type} : Dict α → Str → Option α
  | [], _ => none
  | (k, v) :: rest, key => if k = key then some v else dictGet rest key

/-- Python `key in d`. -/
def dictContains {α : Type} (d : Dict α) (key : Str) : Bool :=
  (dictGet d key).isSome

/-- Python errors the embedded code can raise. -/
inductive PyErr where
  | keyError (key : Str)
  | typeError
deriving DecidableEq

instance {ε α : Type} [DecidableEq ε] [DecidableEq α] : DecidableEq (Except ε α) := fun a b =>
  match a, b with
  | .ok a, .ok b => decidable_of_iff (a = b) (by simp)
  | .error a, .error b => decidable_of_iff (a = b) (by simp)
  | .ok _, .error _ => isFalse (fun h => Except.noConfusion h)
  | .error _, .ok _ => isFalse (fun h => Except.noConfusion h)

/-- Python `d[key]`: raises `KeyError` when the key is absent. -/
def dictIndex {α : Type} (d : Dict α) (key : Str) : Except PyErr α :=
  match dictGet d key with
  | some v => .ok v
  | none => .error (.keyError key)

/-- Python `sep.join(xs)`. -/
def joinWith (sep : Str) : List Str → Str
  | [] => []
  | [x] => x
  | x :: y :: rest => x ++ sep ++ joinWith sep (y :: rest)

/-- Integer division rounding to nearest, ties to even (IEEE-754 default). -/
def halfEvenDiv (a b : Nat) : Nat :=
  let q := a / b
  let r := a % b
  if 2 * r < b then q
  else if b < 2 * r then q + 1
  else if q % 2 = 0 then q else q + 1

/-- Fueled binary logarithm (the fuel only bounds recursion depth, so 96
covers every `n < 2^96`; `Nat.log2` itself is well-founded recursion and
does not reduce in the kernel). -/
def log2Aux : Nat → Nat → Nat
  | 0, _ => 0
  | fuel + 1, n => if n ≤ 1 then 0 else log2Aux fuel (n / 2) + 1

/-- Position of the top set bit of `n`, for `n < 2^96`. -/
def fpLog2 (n : Nat) : Nat := log2Aux 96 n

/-- `int(b * m)` where `b : Nat` is exactly representable and `m` is the
IEEE-754 double with mantissa-times-2^52 value `M`: the exact product
`b * M / 2^52` is rounded to nearest-even at 53-bit precision and the
result truncated toward zero.  Faithful for the normal positive range the
pricing tables live in. -/
def fp64MulTrunc (b M : Nat) : Nat :=
  let P := b * M
  if P = 0 then 0
  else
    let E := fpLog2 P - 52
    let R := halfEvenDiv P (2 ^ E)
    R * 2 ^ E / 2 ^ 52

/-- The 2^52-scaled mantissa of the double `1.0`. -/
def FLOAT_ONE : Nat := 4503599627370496

/-!
## tools.py — `6_Agents/tools/tools.py`

The product catalog, the pricing tables, the eligibility set and the three
tool functions, in source order.
-/

/-- The `PRODUCTS` catalog of `tools.py`, in insertion order. -/
def PRODUCTS : Dict Str :=
  [ (pyStr "ai infrastructure & operations protection",
     pyStr "Covers failures in AI compute infrastructure, cloud dependencies, and operational outages caused by model or pipeline failures."),
    (pyStr "agentic ai liability insurance",
     pyStr "Covers third-party liability arising from decisions or actions taken by autonomous AI agents on behalf of the insured."),
    (pyStr "autonomous systems & robotics coverage",
     pyStr "Covers physical damage, liability, and operational risk for robotics and autonomous vehicle deployments."),
    (pyStr "compliance & regulatory shield",
     pyStr "Covers regulatory fines, legal defence costs, and compliance remediation arising from AI-related regulatory actions."),
    (pyStr "agentic workflow uptime insurance",
     pyStr "Covers business interruption losses when agentic workflows go offline or produce degraded output."),
    (pyStr "intellectual property & output protection",
     pyStr "Covers IP infringement claims and disputes arising from AI-generated content or model outputs."),
    (pyStr "model & data security insurance",
     pyStr "Covers breaches, adversarial attacks, data poisoning, and model theft incidents."),
    (pyStr "ai incident response & crisis management",
     pyStr "Covers the cost of technical triage, root cause analysis, PR response, and legal coordination following an AI incident."),
    (pyStr "synthetic data & dataset integrity coverage",
     pyStr "Covers liability and losses arising from flawed synthetic datasets used in model training.") ]

/-- The for-loop of `get_product_info`: first catalog entry whose key
contains the normalized input or is contained in it. -/
def scanProducts (key : Str) : Dict Str → Option Str
  | [] => none
  | (product_key, description) :: rest =>
      if pyIn key product_key || pyIn product_key key then some description
      else scanProducts key rest

/-- The not-found message of `get_product_info`, echoing the raw input. -/
def noProductMsg (product_name : Str) : Str :=
  pyStr "No product named '" ++ product_name ++
  pyStr "' found. Available products: " ++
  joinWith (pyStr ", ") (PRODUCTS.map (·.1)) ++ pyStr "."

/-- `get_product_info` of `tools.py`. -/
def get_product_info (product_name : Str) : Except PyErr Str :=
  let key := pyLower (pyStrip product_name)
  if dictContains PRODUCTS key then
    dictIndex PRODUCTS key
  else
    match scanProducts key PRODUCTS with
    | some description => .ok description
    | none => .ok (noProductMsg product_name)

/-- A base-premium row: the `{"low": _, "mid": _, "high": _}` dict. -/
structure PremiumTriple where
  low : Nat
  mid : Nat
  high : Nat
deriving DecidableEq

/-- The `_BASE_PREMIUMS` table of `tools.py`. -/
def BASE_PREMIUMS : Dict PremiumTriple :=
  [ (pyStr "startup",    ⟨5000, 12000, 25000⟩),
    (pyStr "mid-market", ⟨20000, 45000, 90000⟩),
    (pyStr "enterprise", ⟨75000, 150000, 300000⟩) ]

/-- The `_COVERAGE_MULTIPLIERS` table of `tools.py`; each value is the
2^52-scaled mantissa of the source's double literal (1.4, 1.6, 1.2, 1.3,
1.1 respectively). -/
def COVERAGE_MULTIPLIERS : Dict Nat :=
  [ (pyStr "agentic ai liability insurance",           6305039478318694),
    (pyStr "autonomous systems & robotics coverage",   7205759403792794),
    (pyStr "compliance & regulatory shield",           5404319552844595),
    (pyStr "model & data security insurance",          5854679515581645),
    (pyStr "ai incident response & crisis management", 4953959590107546) ]

/-- The unknown-company-size message of `get_pricing_estimate`. -/
def unknownSizeMsg (company_size : Str) : Str :=
  pyStr "Unknown company size '" ++ company_size ++
  pyStr "'. Please use: startup, mid-market, or enterprise."

/-- Drop the leading zero that `Nat.toDigits` never produces; decimal
digit characters of `n`, most significant first. -/
def natDecimal (n : Nat) : List Char := Nat.toDigits 10 n

/-- Insert a comma after every third digit, working over the reversed
digit list. -/
def group3 : List Char → List Char
  | a :: b :: c :: d :: rest => a :: b :: c :: ',' :: group3 (d :: rest)
  | l => l

/-- Python's `f"{n:,}"` thousands-separated rendering of a natural. -/
def commafy (n : Nat) : Str :=
  (group3 (natDecimal n).reverse).reverse

/-- The formatted estimate string of `get_pricing_estimate` (the source
uses an en dash between the low and high figures). -/
def estimateMsg (coverage_type company_size : Str) (low mid high : Nat) : Str :=
  pyStr "Estimated annual premium for '" ++ coverage_type ++
  pyStr "' (" ++ company_size ++ pyStr "): $" ++ commafy low ++
  pyStr " – $" ++ commafy high ++ pyStr " (midpoint ~$" ++ commafy mid ++
  pyStr "). Final pricing subject to full underwriting assessment."

/-- The `(low, mid, high)` figures `get_pricing_estimate` computes for a
recognized size key: base row scaled by the coverage multiplier in double
arithmetic and truncated to `int`. -/
def pricingFigures (coverage_type : Str) (base : PremiumTriple) : Nat × Nat × Nat :=
  let multiplier := (dictGet COVERAGE_MULTIPLIERS (pyLower (pyStrip coverage_type))).getD FLOAT_ONE
  (fp64MulTrunc base.low multiplier,
   fp64MulTrunc base.mid multiplier,
   fp64MulTrunc base.high multiplier)

/-- `get_pricing_estimate` of `tools.py`. -/
def get_pricing_estimate (coverage_type company_size : Str) : Except PyErr Str :=
  let size_key := pyLower (pyStrip company_size)
  if dictContains BASE_PREMIUMS size_key then do
    let base ← dictIndex BASE_PREMIUMS size_key
    let figures := pricingFigures coverage_type base
    .ok (estimateMsg coverage_type company_size figures.1 figures.2.1 figures.2.2)
  else
    .ok (unknownSizeMsg company_size)

/-- The `_ELIGIBLE_INDUSTRIES` set of `tools.py` (membership only ever
feeds a boolean scan, so the set is embedded as its literal's list). -/
def ELIGIBLE_INDUSTRIES : List Str :=
  [ pyStr "ai startups",
    pyStr "llm application providers",
    pyStr "enterprises deploying autonomous agents",
    pyStr "robotics developers",
    pyStr "autonomous vehicle developers",
    pyStr "synthetic data organizations",
    pyStr "model training organizations",
    pyStr "healthcare",
    pyStr "finance",
    pyStr "legal",
    pyStr "regulated industries" ]

/-- The for-loop of `check_eligibility`: bidirectional substring match
against the eligible-industry entries. -/
def scanEligible (key : Str) : List Str → Bool
  | [] => false
  | eligible :: rest => (pyIn eligible key || pyIn key eligible) || scanEligible key rest

/-- The affirmative message of `check_eligibility`, echoing the raw input. -/
def eligibleMsg (industry : Str) : Str :=
  pyStr "'" ++ industry ++
  pyStr "' is within AI Agent Insure's target market. Coverage options are available."

/-- The not-listed message of `check_eligibility`. -/
def notListedMsg (industry : Str) : Str :=
  pyStr "'" ++ industry ++
  pyStr "' is not currently listed as a target market segment. AI Agent Insure focuses on AI-native companies and regulated industries adopting AI. A custom underwriting review may still be possible."

/-- `check_eligibility` of `tools.py`. -/
def check_eligibility (industry : Str) : Except PyErr Str :=
  let key := pyLower (pyStrip industry)
  if scanEligible key ELIGIBLE_INDUSTRIES then .ok (eligibleMsg industry)
  else .ok (notListedMsg industry)

/-!
## rag_utils.py — `4_RAG/demo/rag_utils.py` (and the identical
`chunk_by_sentences` of `5_RAG_App/app.py` / the inline copy in
`6_Agents/app/agent_app.py`)
-/

/-- Python `doc.replace("\n", " ")`. -/
def pyReplaceNlSpace (s : Str) : Str :=
  s.map (fun c => if c = '\n' then ' ' else c)

/-- `chunk_by_sentences`: replace newlines by spaces, split on periods,
strip, drop blanks, re-add the period. -/
def chunk_by_sentences (doc : Str) : List Str :=
  let chunks := (((pyReplaceNlSpace doc).splitOn '.').map pyStrip).filter (fun s => !s.isEmpty)
  chunks.map (fun c => c ++ ['.'])

/-- The `while start < len(tokens)` loop of `chunk_by_tokens`.  The
tokenizer's `encode`/`decode` are external (tiktoken); `decode` is a
parameter and the loop runs over an arbitrary token list.  `fuel` bounds
the number of iterations: `none` means the loop has not finished within
`fuel` iterations (the Python loop has no bound of its own). -/
def chunkLoop (decode : List Nat → Str) (tokens : List Nat)
    (max_tokens overlap_tokens : Nat) : Nat → Nat → Option (List Str)
  | 0, _ => none
  | fuel + 1, start =>
    if start < tokens.length then
      let endIdx := min (start + max_tokens) tokens.length
      let chunk_tokens := (tokens.drop start).take (endIdx - start)
      let chunk := pyStrip (decode chunk_tokens)
      let start' := if endIdx < tokens.length then endIdx - overlap_tokens else tokens.length
      (chunkLoop decode tokens max_tokens overlap_tokens fuel start').map (chunk :: ·)
    else some []

/-- `chunk_by_tokens` on an already-encoded token list: run the window
loop from `start = 0`, then keep only non-empty chunks. -/
def chunk_by_tokens (decode : List Nat → Str) (tokens : List Nat)
    (max_tokens overlap_tokens fuel : Nat) : Option (List Str) :=
  (chunkLoop decode tokens max_tokens overlap_tokens fuel 0).map
    (fun cs => cs.filter (fun c => !c.isEmpty))

/-!
## search.py — `2_LLM_Demo_App/backend/search.py`

The vector store itself is ChromaDB, an external collaborator (spec §1);
its `query` contract is modelled from spec §6.
-/

/-- One stored item of the `products` collection: identifier, embedding
vector and metadata dict, as `add_product` inserts them. -/
structure CollEntry where
  id : Str
  embedding : List ℚ
  metadata : Dict Str

/-- Round a rational to the nearest integer, ties to even (the tie rule
of Python's `round`). -/
def halfEvenInt (q : ℚ) : ℤ :=
  let f := ⌊q⌋
  let frac := q - f
  if frac < 1 / 2 then f
  else if 1 / 2 < frac then f + 1
  else if f % 2 = 0 then f else f + 1

/-- Python `round(q, 2)` on the embedding's exact rationals. -/
def pyRound2 (q : ℚ) : ℚ := (halfEvenInt (100 * q) : ℚ) / 100

/-- Insertion into a distance-ascending list, keeping earlier entries
first among ties (stable). -/
def insertByDist : (CollEntry × ℚ) → List (CollEntry × ℚ) → List (CollEntry × ℚ)
  | x, [] => [x]
  | x, y :: rest => if y.2 ≤ x.2 then y :: insertByDist x rest else x :: y :: rest

/-- Sort entry/distance pairs by ascending distance. -/
def sortByDist : List (CollEntry × ℚ) → List (CollEntry × ℚ)
  | [] => []
  | x :: rest => insertByDist x (sortByDist rest)

/-- Modelled from the spec: ChromaDB's `collection.query` (external,
spec §6 "Vector collection": `query(vector, k) → ranked (id, document,
distance) list`): score every stored entry with the collection's
internal distance metric `dist`, rank by ascending distance and return
the first `k`. -/
def collQuery (dist : List ℚ → List ℚ → ℚ) (entries : List CollEntry)
    (query_embedding : List ℚ) (top_k : Nat) : List (CollEntry × ℚ) :=
  (sortByDist (entries.map (fun e => (e, dist query_embedding e.embedding)))).take top_k

/-- A decimal-digit run's value, `none` when empty or non-digit. -/
def digitsVal : Str → Option Nat
  | [] => none
  | l => l.foldl (fun acc c => acc.bind (fun n =>
      if c.isDigit then some (n * 10 + (c.toNat - 48)) else none)) (some 0)

/-- Python `float(s)` restricted to the plain decimal forms
(`[+-]digits[.digits]`, `[+-].digits`, `[+-]digits.`); `none` models the
`ValueError` the source catches.  Exponent/infinity/nan forms, which the
seed data never produces, are omitted. -/
def parseFloat (s : Str) : Option ℚ :=
  let t := pyStrip s
  let signed : ℚ × Str :=
    match t with
    | '-' :: r => (-1, r)
    | '+' :: r => (1, r)
    | _ => (1, t)
  match signed.2.splitOn '.' with
  | [i] => (digitsVal i).map (fun n => signed.1 * n)
  | [i, f] =>
    match digitsVal i, digitsVal f with
    | some n, some m => some (signed.1 * (n + (m : ℚ) / 10 ^ f.length))
    | some n, none => if f = [] then some (signed.1 * n) else none
    | none, some m => if i = [] then some (signed.1 * ((m : ℚ) / 10 ^ f.length)) else none
    | none, none => none
  | _ => none

/-- A converted result row of `search_products`. -/
structure Product where
  id : Str
  name : Str
  description : Str
  category : Str
  image_path : Str
  score : ℚ
  price : Option ℚ
  features : List Str

/-- The result-conversion loop body of `search_products`. -/
def mkProduct (product_id : Str) (metadata : Dict Str) (distance : ℚ) : Product :=
  let price_str := (dictGet metadata (pyStr "price")).getD []
  let features_str := (dictGet metadata (pyStr "features")).getD []
  { id := product_id
    name := (dictGet metadata (pyStr "name")).getD []
    description := (dictGet metadata (pyStr "description")).getD []
    category := (dictGet metadata (pyStr "category")).getD []
    image_path := (dictGet metadata (pyStr "image_path")).getD []
    score := pyRound2 (1 - distance)
    price := if !price_str.isEmpty && !(pyStrip price_str).isEmpty
             then parseFloat price_str else none
    features := if !features_str.isEmpty && !(pyStrip features_str).isEmpty
                then (features_str.splitOn ',').map pyStrip else [] }

/-- `search_products`: empty result on an empty collection, otherwise the
converted top-k query results. -/
def search_products (dist : List ℚ → List ℚ → ℚ) (entries : List CollEntry)
    (query_embedding : List ℚ) (top_k : Nat) : List Product :=
  if entries.length = 0 then []
  else (collQuery dist entries query_embedding top_k).map
    (fun r => mkProduct r.1.id r.1.metadata r.2)

/-!
## agent_app.py — `6_Agents/app/agent_app.py`

`run_agent` drives the conversation against the external chat model; the
model's successive responses are an oracle `responses : Nat → ModelResponse`
(`responses i` is what `chat.completions.create` returns on the loop's
`i`-th round trip).  `json.loads` of a tool call's argument string is part
of that boundary: a call arrives with its argument dict already decoded.
-/

/-- One tool-call request of a model response. -/
structure ToolCall where
  id : Str
  name : Str
  args : Dict Str
deriving DecidableEq

/-- One chat-completion response: the finish reason, the message content
and the requested tool calls. -/
structure ModelResponse where
  finish_reason : Str
  content : Str
  tool_calls : List ToolCall
deriving DecidableEq

/-- Message roles of the conversation. -/
inductive Role where
  | system
  | user
  | assistant
  | tool
deriving DecidableEq

/-- One conversation message. -/
structure Message where
  role : Role
  content : Str
  tool_call_id : Option Str
  tool_calls : List ToolCall
deriving DecidableEq

/-- The assistant message `choice.message` appended each round trip. -/
def assistantMsg (r : ModelResponse) : Message :=
  ⟨.assistant, r.content, none, r.tool_calls⟩

/-- The `{"role": "tool", "tool_call_id": tc.id, "content": result}`
message appended after a dispatch. -/
def toolMsg (call_id result : Str) : Message :=
  ⟨.tool, result, some call_id, []⟩

/-- One trace record `{"tool": fn_name, "args": fn_args, "result": result}`. -/
structure TraceEntry where
  tool : Str
  args : Dict Str
  result : Str
deriving DecidableEq

/-- A registered tool callable, applied to decoded keyword arguments. -/
abbrev ToolFn := Dict Str → Except PyErr Str

/-- The mutable locals of `run_agent`: the conversation and the trace. -/
structure AgentState where
  messages : List Message
  trace : List TraceEntry
deriving DecidableEq

/-- `all_functions[fn_name](**fn_args)`: the registry lookup raises
`KeyError` for an unregistered name, the call itself may raise. -/
def dispatchCall (all_functions : Dict ToolFn) (tc : ToolCall) : Except PyErr Str :=
  match dictIndex all_functions tc.name with
  | .error e => .error e
  | .ok f => f tc.args

/-- The `for tc in choice.message.tool_calls` dispatch block: invoke each
call in order, appending one trace record and one tool message per
completed call. -/
def dispatchCalls (all_functions : Dict ToolFn) :
    List ToolCall → AgentState → Except PyErr AgentState
  | [], st => .ok st
  | tc :: rest, st =>
    match dispatchCall all_functions tc with
    | .error e => .error e
    | .ok result =>
      dispatchCalls all_functions rest
        ⟨st.messages ++ [toolMsg tc.id result], st.trace ++ [⟨tc.name, tc.args, result⟩]⟩

/-- The sentinel answer returned when the iteration cap is exhausted. -/
def sentinelMsg (max_iterations : Nat) : Str :=
  pyStr "[Agent stopped after " ++ natDecimal max_iterations ++
  pyStr " iterations without a final answer]"

/-- The `for _ in range(max_iterations)` loop of `run_agent`: `i` is the
current round-trip index, `remaining` the iterations left.  A response
whose finish reason is neither `stop` nor `tool_calls` just loops, as in
the source. -/
def agentLoop (all_functions : Dict ToolFn) (responses : Nat → ModelResponse)
    (max_iterations : Nat) : Nat → Nat → AgentState → Except PyErr (Str × AgentState)
  | _, 0, st => .ok (sentinelMsg max_iterations, st)
  | i, remaining + 1, st =>
    let response := responses i
    let st1 : AgentState := ⟨st.messages ++ [assistantMsg response], st.trace⟩
    if response.finish_reason = pyStr "stop" then
      .ok (response.content, st1)
    else if response.finish_reason = pyStr "tool_calls" then
      match dispatchCalls all_functions response.tool_calls st1 with
      | .error e => .error e
      | .ok st2 => agentLoop all_functions responses max_iterations (i + 1) remaining st2
    else
      agentLoop all_functions responses max_iterations (i + 1) remaining st1

/-- The system prompt of `agent_app.py`. -/
def SYSTEM_PROMPT : Str :=
  pyStr "You are a helpful assistant for AI Agent Insure, a specialty insurer for AI systems, autonomous agents, and ML infrastructure. Use search_docs to look up detailed information from the company document. Use the other tools for structured lookups (product details, pricing, eligibility). Call as many tools as you need — do not guess when a tool can give you the answer."

/-- The seeded conversation `[system prompt, user question]` with an
empty trace. -/
def initState (question : Str) : AgentState :=
  ⟨[⟨.system, SYSTEM_PROMPT, none, []⟩, ⟨.user, question, none, []⟩], []⟩

/-- The source's default `max_iterations`. -/
def DEFAULT_MAX_ITERATIONS : Nat := 10

/-- `run_agent`: returns `(final_answer, trace)`, or the error any
round trip raised. -/
def run_agent (question : Str) (all_functions : Dict ToolFn)
    (responses : Nat → ModelResponse) (max_iterations : Nat) :
    Except PyErr (Str × List TraceEntry) :=
  match agentLoop all_functions responses max_iterations 0 max_iterations (initState question) with
  | .error e => .error e
  | .ok r => .ok (r.1, r.2.trace)

/-- Keyword-argument binding for a one-parameter tool: Python raises
`TypeError` unless the argument dict is exactly `{pname: value}`. -/
def kwargs1 (pname : Str) (f : Str → Except PyErr Str) : ToolFn := fun args =>
  match args with
  | [(k, v)] => if k = pname then f v else .error .typeError
  | _ => .error .typeError

/-- Keyword-argument binding for a two-parameter tool: both names must be
present (in either order) and nothing else. -/
def kwargs2 (p1 p2 : Str) (f : Str → Str → Except PyErr Str) : ToolFn := fun args =>
  if args.length = 2 then
    match dictGet args p1, dictGet args p2 with
    | some v1, some v2 => f v1 v2
    | _, _ => .error .typeError
  else .error .typeError

/-- The `TOOL_FUNCTIONS` registry of `tools.py`. -/
def TOOL_FUNCTIONS : Dict ToolFn :=
  [ (pyStr "get_product_info", kwargs1 (pyStr "product_name") get_product_info),
    (pyStr "get_pricing_estimate",
      kwargs2 (pyStr "coverage_type") (pyStr "company_size") get_pricing_estimate),
    (pyStr "check_eligibility", kwargs1 (pyStr "industry") check_eligibility) ]

/-!
## Support definitions for the statements
-/

/-- The lookup part of `get_product_info`: the description the exact
match or the substring scan resolves, `none` when neither hits. -/
def productLookup (product_name : Str) : Option Str :=
  let key := pyLower (pyStrip product_name)
  match dictGet PRODUCTS key with
  | some description => some description
  | none => scanProducts key PRODUCTS

/-- Componentwise order on `(low, mid, high)` figures. -/
def tripleLe (a b : Nat × Nat × Nat) : Prop :=
  a.1 ≤ b.1 ∧ a.2.1 ≤ b.2.1 ∧ a.2.2 ≤ b.2.2

/-- The tool-result messages of a conversation, in order. -/
def toolMessages (st : AgentState) : List Message :=
  st.messages.filter (fun m => m.role == Role.tool)

/-- A model response that immediately stops with a fixed answer. -/
def stopResponse : ModelResponse :=
  ⟨pyStr "stop", pyStr "All done.", []⟩

/-- A model response requesting a tool name absent from the registry. -/
def unknownToolResponse : ModelResponse :=
  ⟨pyStr "tool_calls", [], [⟨pyStr "call_1", pyStr "no_such_tool", []⟩]⟩

/-- A model response requesting one well-formed eligibility check. -/
def eligibilityCallResponse : ModelResponse :=
  ⟨pyStr "tool_calls", [],
   [⟨pyStr "call_1", pyStr "check_eligibility", [(pyStr "industry", pyStr "healthcare")]⟩]⟩

/-- Responses driving one eligibility tool call and then a stop. -/
def oneCallThenStop : Nat → ModelResponse
  | 0 => eligibilityCallResponse
  | _ + 1 => stopResponse

/-- A tool call whose dispatch succeeds: its name is registered and the
bound callable accepts its arguments. -/
def callOk (all_functions : Dict ToolFn) (tc : ToolCall) : Prop :=
  ∃ result, dispatchCall all_functions tc = .ok result

/-- A model response all of whose requested tool calls dispatch
successfully. -/
def responseOk (all_functions : Dict ToolFn) (r : ModelResponse) : Prop :=
  ∀ tc ∈ r.tool_calls, callOk all_functions tc

/-- The state `dispatchCalls` reaches from the seeded conversation after
the single eligibility call of `eligibilityCallResponse`. -/
def exDispatchState : AgentState :=
  ⟨[⟨.system, SYSTEM_PROMPT, none, []⟩,
    ⟨.user, pyStr "q", none, []⟩,
    ⟨.tool, eligibleMsg (pyStr "healthcare"), some (pyStr "call_1"), []⟩],
   [⟨pyStr "check_eligibility", [(pyStr "industry", pyStr "healthcare")],
     eligibleMsg (pyStr "healthcare")⟩]⟩

/-- The final state of the two-iteration `oneCallThenStop` run. -/
def exFinalState : AgentState :=
  ⟨[⟨.system, SYSTEM_PROMPT, none, []⟩,
    ⟨.user, pyStr "q", none, []⟩,
    ⟨.assistant, [], none,
     [⟨pyStr "call_1", pyStr "check_eligibility", [(pyStr "industry", pyStr "healthcare")]⟩]⟩,
    ⟨.tool, eligibleMsg (pyStr "healthcare"), some (pyStr "call_1"), []⟩,
    ⟨.assistant, pyStr "All done.", none, []⟩],
   [⟨pyStr "check_eligibility", [(pyStr "industry", pyStr "healthcare")],
     eligibleMsg (pyStr "healthcare")⟩]⟩

/-!
## Lemmas about the string primitives
-/

theorem isPySpace_toLower (c : Char) : isPySpace (Char.toLower c) = isPySpace c := by
  by_cases h : c.toNat ≥ 65 ∧ c.toNat ≤ 90
  · obtain ⟨h1, h2⟩ := h
    obtain ⟨n, hn⟩ : ∃ n, c.toNat = n := ⟨_, rfl⟩
    have hc : c = Char.ofNat n := by rw [← hn, Char.ofNat_toNat]
    rw [hn] at h1 h2
    subst hc
    interval_cases n <;> decide
  · have hc : Char.toLower c = c := by simp [Char.toLower, h]
    rw [hc]

theorem toLower_toLower (c : Char) : Char.toLower (Char.toLower c) = Char.toLower c := by
  by_cases h : c.toNat ≥ 65 ∧ c.toNat ≤ 90
  · obtain ⟨h1, h2⟩ := h
    obtain ⟨n, hn⟩ : ∃ n, c.toNat = n := ⟨_, rfl⟩
    have hc : c = Char.ofNat n := by rw [← hn, Char.ofNat_toNat]
    rw [hn] at h1 h2
    subst hc
    interval_cases n <;> decide
  · have hc : Char.toLower c = c := by simp [Char.toLower, h]
    rw [hc, hc]

theorem pyStrip_pyLower (s : Str) : pyStrip (pyLower s) = pyLower (pyStrip s) := by
  have hfun : (isPySpace ∘ Char.toLower) = isPySpace := funext isPySpace_toLower
  simp only [pyStrip, pyLower, List.dropWhile_map, hfun, ← List.map_reverse]

theorem pyLower_pyLower (s : Str) : pyLower (pyLower s) = pyLower s := by
  simp only [pyLower, List.map_map]
  exact congrFun (congrArg List.map (funext toLower_toLower)) s

theorem dropWhile_head_not {p : Char → Bool} {l : List Char} {a : Char}
    (h : (l.dropWhile p).head? = some a) : ¬ p a := by
  induction l with
  | nil => simp at h
  | cons b t ih =>
    by_cases hb : p b
    · rw [List.dropWhile_cons_of_pos hb] at h
      exact ih h
    · rw [List.dropWhile_cons_of_neg hb] at h
      simp at h
      subst h
      exact hb

theorem dropWhile_dropWhile (p : Char → Bool) (l : List Char) :
    (l.dropWhile p).dropWhile p = l.dropWhile p := by
  cases h : (l.dropWhile p).head? with
  | none => rw [List.head?_eq_none_iff.mp h]; rfl
  | some a =>
    obtain ⟨t, ht⟩ : ∃ t, l.dropWhile p = a :: t := by
      cases hl : l.dropWhile p with
      | nil => rw [hl] at h; simp at h
      | cons x xs => rw [hl] at h; simp at h; subst h; exact ⟨xs, rfl⟩
    rw [ht]
    exact List.dropWhile_cons_of_neg (dropWhile_head_not h)

theorem pyStrip_pyStrip (s : Str) : pyStrip (pyStrip s) = pyStrip s := by
  unfold pyStrip
  set A := s.dropWhile isPySpace with hA
  set B := (A.reverse.dropWhile isPySpace).reverse with hB
  have hBA : B <+: A := by
    have := List.IsSuffix.reverse (List.dropWhile_suffix (l := A.reverse) isPySpace)
    rwa [List.reverse_reverse] at this
  have hBdrop : B.dropWhile isPySpace = B := by
    cases hb : B.head? with
    | none => rw [List.head?_eq_none_iff.mp hb]; rfl
    | some a =>
      obtain ⟨t, ht⟩ : ∃ t, B = a :: t := by
        cases hBc : B with
        | nil => rw [hBc] at hb; simp at hb
        | cons x xs => rw [hBc] at hb; simp at hb; subst hb; exact ⟨xs, rfl⟩
      have haA : A.head? = some a := by
        obtain ⟨r, hr⟩ := hBA
        rw [← hr, ht]
        rfl
      have hnot : ¬ isPySpace a := by
        apply dropWhile_head_not (p := isPySpace) (l := s)
        rw [← hA]
        exact haA
      rw [ht]
      exact List.dropWhile_cons_of_neg hnot
  rw [hBdrop, List.reverse_reverse, dropWhile_dropWhile]

theorem pyNorm_idem (s : Str) :
    pyLower (pyStrip (pyLower (pyStrip s))) = pyLower (pyStrip s) := by
  rw [pyStrip_pyLower, pyStrip_pyStrip, pyLower_pyLower]

/-!
## Claims C1, C2
-/

/-- Claim C1, as stated, is false on the code: `check_eligibility`
applied to `"robotics startup"` does not return the affirmative
in-target-market message, because no eligible-industry entry matches the
bidirectional substring test. -/
theorem check_eligibility_robotics_startup_cex :
    check_eligibility (pyStr "robotics startup") ≠
      .ok (eligibleMsg (pyStr "robotics startup")) := by decide

/-- Claim C1 (amended): `check_eligibility("robotics startup")` returns
the not-listed message: the bidirectional substring match fails against
every eligible entry — in particular `"robotics startup"` is not a
substring of `"robotics developers"` nor conversely. -/
theorem check_eligibility_robotics_startup :
    check_eligibility (pyStr "robotics startup") =
      .ok (notListedMsg (pyStr "robotics startup")) ∧
    scanEligible (pyStr "robotics startup") ELIGIBLE_INDUSTRIES = false ∧
    pyIn (pyStr "robotics startup") (pyStr "robotics developers") = false ∧
    pyIn (pyStr "robotics developers") (pyStr "robotics startup") = false := by decide

/-- Claim C2: `get_pricing_estimate("agentic ai liability insurance",
"startup")` computes the figures (7000, 16800, 35000) — the startup base
(5000, 12000, 25000) scaled by the 1.4 multiplier in double arithmetic
and truncated — and reports them in the formatted estimate string. -/
theorem get_pricing_estimate_agentic_startup :
    pricingFigures (pyStr "agentic ai liability insurance") ⟨5000, 12000, 25000⟩ =
      (7000, 16800, 35000) ∧
    get_pricing_estimate (pyStr "agentic ai liability insurance") (pyStr "startup") =
      .ok (estimateMsg (pyStr "agentic ai liability insurance") (pyStr "startup")
            7000 16800 35000) := by decide

/-!
## Claim C3
-/

theorem multiplier_cases (key : Str) :
    (dictGet COVERAGE_MULTIPLIERS key).getD FLOAT_ONE = 4503599627370496 ∨
    (dictGet COVERAGE_MULTIPLIERS key).getD FLOAT_ONE = 6305039478318694 ∨
    (dictGet COVERAGE_MULTIPLIERS key).getD FLOAT_ONE = 7205759403792794 ∨
    (dictGet COVERAGE_MULTIPLIERS key).getD FLOAT_ONE = 5404319552844595 ∨
    (dictGet COVERAGE_MULTIPLIERS key).getD FLOAT_ONE = 5854679515581645 ∨
    (dictGet COVERAGE_MULTIPLIERS key).getD FLOAT_ONE = 4953959590107546 := by
  simp only [COVERAGE_MULTIPLIERS, dictGet]
  split_ifs <;> simp [FLOAT_ONE]

/-- Claim C3: for every coverage-type string, the (low, mid, high)
figures of `get_pricing_estimate` are componentwise monotone across the
company sizes startup ≤ mid-market ≤ enterprise of `_BASE_PREMIUMS`. -/
theorem pricing_monotone_in_company_size (coverage_type : Str)
    (bs bm be : PremiumTriple)
    (hs : dictGet BASE_PREMIUMS (pyStr "startup") = some bs)
    (hm : dictGet BASE_PREMIUMS (pyStr "mid-market") = some bm)
    (he : dictGet BASE_PREMIUMS (pyStr "enterprise") = some be) :
    tripleLe (pricingFigures coverage_type bs) (pricingFigures coverage_type bm) ∧
    tripleLe (pricingFigures coverage_type bm) (pricingFigures coverage_type be) := by
  have h0 : dictGet BASE_PREMIUMS (pyStr "startup") =
      some (⟨5000, 12000, 25000⟩ : PremiumTriple) := by decide
  have h1 : dictGet BASE_PREMIUMS (pyStr "mid-market") =
      some (⟨20000, 45000, 90000⟩ : PremiumTriple) := by decide
  have h2 : dictGet BASE_PREMIUMS (pyStr "enterprise") =
      some (⟨75000, 150000, 300000⟩ : PremiumTriple) := by decide
  rw [h0] at hs; rw [h1] at hm; rw [h2] at he
  obtain rfl : _ = bs := Option.some_inj.mp hs
  obtain rfl : _ = bm := Option.some_inj.mp hm
  obtain rfl : _ = be := Option.some_inj.mp he
  rcases multiplier_cases (pyLower (pyStrip coverage_type)) with h | h | h | h | h | h <;>
    simp only [pricingFigures, tripleLe, h] <;> decide

/-- Claim C3 witness: the monotonicity theorem applied to the concrete
coverage type of the catalog's first multiplier entry. -/
theorem pricing_monotone_in_company_size_witness :
    tripleLe
      (pricingFigures (pyStr "agentic ai liability insurance") ⟨5000, 12000, 25000⟩)
      (pricingFigures (pyStr "agentic ai liability insurance") ⟨20000, 45000, 90000⟩) ∧
    tripleLe
      (pricingFigures (pyStr "agentic ai liability insurance") ⟨20000, 45000, 90000⟩)
      (pricingFigures (pyStr "agentic ai liability insurance") ⟨75000, 150000, 300000⟩) :=
  pricing_monotone_in_company_size (pyStr "agentic ai liability insurance")
    ⟨5000, 12000, 25000⟩ ⟨20000, 45000, 90000⟩ ⟨75000, 150000, 300000⟩
    (by decide) (by decide) (by decide)

/-!
## Claim C4
-/

theorem get_product_info_spec (product_name : Str) :
    get_product_info product_name =
      .ok ((productLookup product_name).getD (noProductMsg product_name)) := by
  unfold get_product_info productLookup dictContains dictIndex
  cases h : dictGet PRODUCTS (pyLower (pyStrip product_name)) with
  | some v => simp [h]
  | none =>
    simp only [h, Option.isSome_none, Bool.false_eq_true, if_false]
    cases hs : scanProducts (pyLower (pyStrip product_name)) PRODUCTS <;> simp [hs]

theorem productLookup_norm (product_name : Str) :
    productLookup (pyLower (pyStrip product_name)) = productLookup product_name := by
  unfold productLookup
  rw [pyNorm_idem]

/-- Claim C4, as stated, is false on the code: pre-normalizing the input
*does* change the result of `get_product_info` in the not-found branch,
whose message echoes the raw input (`"FOO"` versus its normalization
`"foo"`). -/
theorem get_product_info_norm_cex :
    pyLower (pyStrip (pyStr "FOO")) = pyStr "foo" ∧
    get_product_info (pyStr "FOO") ≠ get_product_info (pyStr "foo") := by decide

/-- Claim C4 (amended): `get_product_info("ROBOTICS coverage")` resolves
to the same description as the exact key, and lowercasing/stripping the
input before lookup never changes *which description, if any, is
matched* (only the echoed text of the not-found message can differ). -/
theorem get_product_info_case_insensitive :
    (get_product_info (pyStr "ROBOTICS coverage") =
        get_product_info (pyStr "autonomous systems & robotics coverage") ∧
      get_product_info (pyStr "ROBOTICS coverage") =
        .ok (pyStr "Covers physical damage, liability, and operational risk for robotics and autonomous vehicle deployments.")) ∧
    (∀ product_name, get_product_info product_name =
        .ok ((productLookup product_name).getD (noProductMsg product_name))) ∧
    (∀ product_name,
        productLookup (pyLower (pyStrip product_name)) = productLookup product_name) :=
  ⟨by decide, get_product_info_spec, productLookup_norm⟩

/-!
## Claim C5
-/

/-- Claim C5: on every input, each of the three tools returns `.ok` with
a descriptive string — the lookup result or the not-found message for
products, the formatted estimate or the unknown-size message for
pricing, the affirmative or the not-listed message for eligibility —
and never raises. -/
theorem tools_never_raise (product_name coverage_type company_size industry : Str) :
    (get_product_info product_name =
        .ok ((productLookup product_name).getD (noProductMsg product_name))) ∧
    (get_pricing_estimate coverage_type company_size = .ok (unknownSizeMsg company_size) ∨
      ∃ base, dictGet BASE_PREMIUMS (pyLower (pyStrip company_size)) = some base ∧
        get_pricing_estimate coverage_type company_size =
          .ok (estimateMsg coverage_type company_size
                (pricingFigures coverage_type base).1
                (pricingFigures coverage_type base).2.1
                (pricingFigures coverage_type base).2.2)) ∧
    (check_eligibility industry = .ok (eligibleMsg industry) ∨
      check_eligibility industry = .ok (notListedMsg industry)) := by
  refine ⟨get_product_info_spec product_name, ?_, ?_⟩
  · unfold get_pricing_estimate dictContains dictIndex
    cases h : dictGet BASE_PREMIUMS (pyLower (pyStrip company_size)) with
    | none => simp [h]
    | some base =>
      right
      refine ⟨base, rfl, ?_⟩
      simp [h]
      rfl
  · unfold check_eligibility
    by_cases h : scanEligible (pyLower (pyStrip industry)) ELIGIBLE_INDUSTRIES
    · left; simp [h]
    · right; simp [h]

/-!
## Claim C8
-/

theorem exists_not_mem_dropWhile (p : Char → Bool) {l : Str}
    (h : ∃ c ∈ l, ¬ p c) : ∃ c ∈ l.dropWhile p, ¬ p c := by
  induction l with
  | nil => simp at h
  | cons a t ih =>
    by_cases ha : p a
    · rw [List.dropWhile_cons_of_pos ha]
      apply ih
      obtain ⟨c, hc, hnc⟩ := h
      rcases List.mem_cons.mp hc with rfl | hct
      · exact absurd ha hnc
      · exact ⟨c, hct, hnc⟩
    · rw [List.dropWhile_cons_of_neg ha]
      exact ⟨a, List.mem_cons_self a t, ha⟩

theorem pyStrip_ne_nil {l : Str} (h : ∃ c ∈ l, ¬ isPySpace c) : pyStrip l ≠ [] := by
  unfold pyStrip
  have h1 := exists_not_mem_dropWhile isPySpace h
  have h2 : ∃ c ∈ (l.dropWhile isPySpace).reverse, ¬ isPySpace c := by
    obtain ⟨c, hc, hn⟩ := h1
    exact ⟨c, List.mem_reverse.mpr hc, hn⟩
  obtain ⟨c, hc, _⟩ := exists_not_mem_dropWhile isPySpace h2
  intro he
  rw [List.reverse_eq_nil_iff.mp he] at hc
  exact List.not_mem_nil c hc

theorem mem_pyStrip {c : Char} {l : Str} (h : c ∈ pyStrip l) : c ∈ l := by
  unfold pyStrip at h
  rw [List.mem_reverse] at h
  have h1 := (List.dropWhile_sublist isPySpace).subset h
  rw [List.mem_reverse] at h1
  exact (List.dropWhile_sublist isPySpace).subset h1

theorem not_nl_mem_replace (l : Str) : '\n' ∉ pyReplaceNlSpace l := by
  unfold pyReplaceNlSpace
  intro h
  obtain ⟨c, _, hc⟩ := List.mem_map.mp h
  by_cases h' : c = '\n' <;> simp [h'] at hc

theorem not_dot_mem_replace {l : Str} (h : '.' ∉ l) :
    ∀ x ∈ pyReplaceNlSpace l, ¬ ((x == '.') = true) := by
  intro x hx
  obtain ⟨c, hc, rfl⟩ := List.mem_map.mp hx
  by_cases h' : c = '\n'
  · simp [h']
  · simp only [if_neg h', beq_iff_eq]
    intro he
    exact h (he ▸ hc)

theorem exists_nonspace_replace {l : Str} (h : ∃ c ∈ l, ¬ isPySpace c) :
    ∃ c ∈ pyReplaceNlSpace l, ¬ isPySpace c := by
  obtain ⟨c, hc, hn⟩ := h
  have hcn : c ≠ '\n' := by
    intro he
    exact hn (by rw [he]; decide)
  refine ⟨c, ?_, hn⟩
  unfold pyReplaceNlSpace
  exact List.mem_map.mpr ⟨c, hc, by simp [hcn]⟩

/-- Claim C8: a document of exactly three period-terminated sentences
(each period-free and containing a non-whitespace character, with no
other periods) chunks into exactly three chunks, each ending in a period
and containing no newline. -/
theorem chunk_by_sentences_three (s1 s2 s3 : Str)
    (d1 : '.' ∉ s1) (d2 : '.' ∉ s2) (d3 : '.' ∉ s3)
    (n1 : ∃ c ∈ s1, ¬ isPySpace c) (n2 : ∃ c ∈ s2, ¬ isPySpace c)
    (n3 : ∃ c ∈ s3, ¬ isPySpace c) :
    (chunk_by_sentences (s1 ++ '.' :: s2 ++ '.' :: s3 ++ ['.'])).length = 3 ∧
    (∀ ch ∈ chunk_by_sentences (s1 ++ '.' :: s2 ++ '.' :: s3 ++ ['.']),
        ch.getLast? = some '.') ∧
    (∀ ch ∈ chunk_by_sentences (s1 ++ '.' :: s2 ++ '.' :: s3 ++ ['.']), '\n' ∉ ch) := by
  have hrepl : pyReplaceNlSpace (s1 ++ '.' :: s2 ++ '.' :: s3 ++ ['.']) =
      pyReplaceNlSpace s1 ++ '.' :: (pyReplaceNlSpace s2 ++ '.' :: (pyReplaceNlSpace s3 ++ ['.'])) := by
    simp [pyReplaceNlSpace, List.map_append]
  have hsplit : (pyReplaceNlSpace (s1 ++ '.' :: s2 ++ '.' :: s3 ++ ['.'])).splitOn '.' =
      [pyReplaceNlSpace s1, pyReplaceNlSpace s2, pyReplaceNlSpace s3, []] := by
    rw [hrepl]
    show List.splitOnP _ _ = _
    rw [List.splitOnP_first _ _ (not_dot_mem_replace d1) '.' (by decide),
        List.splitOnP_first _ _ (not_dot_mem_replace d2) '.' (by decide),
        List.splitOnP_first _ _ (not_dot_mem_replace d3) '.' (by decide)]
    rfl
  have t1ne : pyStrip (pyReplaceNlSpace s1) ≠ [] :=
    pyStrip_ne_nil (exists_nonspace_replace n1)
  have t2ne : pyStrip (pyReplaceNlSpace s2) ≠ [] :=
    pyStrip_ne_nil (exists_nonspace_replace n2)
  have t3ne : pyStrip (pyReplaceNlSpace s3) ≠ [] :=
    pyStrip_ne_nil (exists_nonspace_replace n3)
  have hchunks : chunk_by_sentences (s1 ++ '.' :: s2 ++ '.' :: s3 ++ ['.']) =
      [pyStrip (pyReplaceNlSpace s1) ++ ['.'],
       pyStrip (pyReplaceNlSpace s2) ++ ['.'],
       pyStrip (pyReplaceNlSpace s3) ++ ['.']] := by
    have e1 : (pyStrip (pyReplaceNlSpace s1)).isEmpty = false := by
      cases hq : (pyStrip (pyReplaceNlSpace s1)).isEmpty with
      | false => rfl
      | true => exact absurd (List.isEmpty_iff.mp hq) t1ne
    have e2 : (pyStrip (pyReplaceNlSpace s2)).isEmpty = false := by
      cases hq : (pyStrip (pyReplaceNlSpace s2)).isEmpty with
      | false => rfl
      | true => exact absurd (List.isEmpty_iff.mp hq) t2ne
    have e3 : (pyStrip (pyReplaceNlSpace s3)).isEmpty = false := by
      cases hq : (pyStrip (pyReplaceNlSpace s3)).isEmpty with
      | false => rfl
      | true => exact absurd (List.isEmpty_iff.mp hq) t3ne
    unfold chunk_by_sentences
    rw [hsplit]
    simp only [List.map_cons, List.map_nil, List.filter, e1, e2, e3]
    rw [show pyStrip ([] : Str) = [] from rfl]
    simp
  rw [hchunks]
  refine ⟨rfl, ?_, ?_⟩
  · intro ch hch
    simp only [List.mem_cons, List.not_mem_nil, or_false] at hch
    rcases hch with rfl | rfl | rfl <;> exact List.getLast?_concat _
  · intro ch hch
    have hnl : ∀ t : Str, t = pyStrip (pyReplaceNlSpace s1) ∨
        t = pyStrip (pyReplaceNlSpace s2) ∨ t = pyStrip (pyReplaceNlSpace s3) →
        '\n' ∉ t ++ ['.'] := by
      intro t ht hmem
      rcases List.mem_append.mp hmem with hm | hm
      · have : ('\n' : Char) ∈ pyReplaceNlSpace s1 ∨ ('\n' : Char) ∈ pyReplaceNlSpace s2 ∨
            ('\n' : Char) ∈ pyReplaceNlSpace s3 := by
          rcases ht with rfl | rfl | rfl
          · exact Or.inl (mem_pyStrip hm)
          · exact Or.inr (Or.inl (mem_pyStrip hm))
          · exact Or.inr (Or.inr (mem_pyStrip hm))
        rcases this with h | h | h
        · exact not_nl_mem_replace s1 h
        · exact not_nl_mem_replace s2 h
        · exact not_nl_mem_replace s3 h
      · simp at hm
    simp only [List.mem_cons, List.not_mem_nil, or_false] at hch
    rcases hch with rfl | rfl | rfl
    · exact hnl _ (Or.inl rfl)
    · exact hnl _ (Or.inr (Or.inl rfl))
    · exact hnl _ (Or.inr (Or.inr rfl))

/-- Claim C8 witness: the three-sentence document `"One. Two. Three."`. -/
theorem chunk_by_sentences_three_witness :
    (chunk_by_sentences (pyStr "One" ++ '.' :: pyStr " Two" ++ '.' :: pyStr " Three" ++ ['.'])).length = 3 ∧
    (∀ ch ∈ chunk_by_sentences (pyStr "One" ++ '.' :: pyStr " Two" ++ '.' :: pyStr " Three" ++ ['.']),
        ch.getLast? = some '.') ∧
    (∀ ch ∈ chunk_by_sentences (pyStr "One" ++ '.' :: pyStr " Two" ++ '.' :: pyStr " Three" ++ ['.']),
        '\n' ∉ ch) :=
  chunk_by_sentences_three (pyStr "One") (pyStr " Two") (pyStr " Three")
    (by decide) (by decide) (by decide) (by decide) (by decide) (by decide)

/-!
## Claim C10
-/

theorem chunkLoop_some (decode : List Nat → Str) (tokens : List Nat)
    (max_tokens overlap_tokens : Nat)
    (hov : overlap_tokens < max_tokens) :
    ∀ fuel start, tokens.length - start < fuel →
      ∃ cs, chunkLoop decode tokens max_tokens overlap_tokens fuel start = some cs := by
  intro fuel
  induction fuel with
  | zero => intro start h; omega
  | succ n ih =>
    intro start h
    by_cases hlt : start < tokens.length
    · by_cases hend : min (start + max_tokens) tokens.length < tokens.length
      · obtain ⟨cs, hcs⟩ := ih (min (start + max_tokens) tokens.length - overlap_tokens)
          (by omega)
        simp only [chunkLoop, if_pos hlt, if_pos hend, hcs]
        exact ⟨_, rfl⟩
      · obtain ⟨cs, hcs⟩ := ih tokens.length (by omega)
        simp only [chunkLoop, if_pos hlt, if_neg hend, hcs]
        exact ⟨_, rfl⟩
    · exact ⟨[], by simp [chunkLoop, hlt]⟩

/-- Claim C10: whenever `0 < max_tokens` and `overlap_tokens <
max_tokens`, the window loop of `chunk_by_tokens` finishes within
`tokens.length + 1` iterations (the start index strictly increases) and
every returned chunk is non-empty; and the guarantee indeed fails when
`overlap_tokens = max_tokens`: on a 3-token input with window 2 and
overlap 2 the loop never finishes, whatever iteration bound is allowed. -/
theorem chunk_by_tokens_termination :
    (∀ (decode : List Nat → Str) (tokens : List Nat) (max_tokens overlap_tokens : Nat),
      0 < max_tokens → overlap_tokens < max_tokens →
      ∃ chunks,
        chunk_by_tokens decode tokens max_tokens overlap_tokens (tokens.length + 1) =
          some chunks ∧ ∀ ch ∈ chunks, ch ≠ []) ∧
    (∀ fuel, chunkLoop (fun _ => pyStr "x") [0, 1, 2] 2 2 fuel 0 = none) := by
  constructor
  · intro decode tokens max_tokens overlap_tokens _hmax hov
    obtain ⟨cs, hcs⟩ := chunkLoop_some decode tokens max_tokens overlap_tokens hov
      (tokens.length + 1) 0 (by omega)
    refine ⟨cs.filter (fun c => !c.isEmpty), ?_, ?_⟩
    · unfold chunk_by_tokens
      rw [hcs]
      rfl
    · intro ch hch
      have hp := List.of_mem_filter hch
      simpa [List.isEmpty_iff] using hp
  · intro fuel
    induction fuel with
    | zero => rfl
    | succ n ih =>
      show (chunkLoop (fun _ => pyStr "x") [0, 1, 2] 2 2 n 0).map _ = none
      rw [ih]
      rfl

/-- Claim C10 witness: the termination half applied to a concrete
4-token list with window 2 and overlap 1. -/
theorem chunk_by_tokens_termination_witness :
    ∃ chunks,
      chunk_by_tokens (fun _ => pyStr "ab") [0, 1, 2, 3] 2 1 5 = some chunks ∧
      ∀ ch ∈ chunks, ch ≠ [] :=
  chunk_by_tokens_termination.1 (fun _ => pyStr "ab") [0, 1, 2, 3] 2 1
    (by decide) (by decide)

/-!
## Claim C9
-/

theorem halfEvenInt_mono {q r : ℚ} (h : q ≤ r) : halfEvenInt q ≤ halfEvenInt r := by
  simp only [halfEvenInt]
  have hf : ⌊q⌋ ≤ ⌊r⌋ := Int.floor_le_floor h
  rcases lt_or_eq_of_le hf with hlt | heq
  · split_ifs <;> omega
  · rw [← heq]
    have hfr : q - ⌊q⌋ ≤ r - ⌊q⌋ := by linarith
    split_ifs <;> first | omega | (exfalso; linarith)

theorem pyRound2_mono {q r : ℚ} (h : q ≤ r) : pyRound2 q ≤ pyRound2 r := by
  unfold pyRound2
  have hm := halfEvenInt_mono (show 100 * q ≤ 100 * r by linarith)
  have hc : (halfEvenInt (100 * q) : ℚ) ≤ (halfEvenInt (100 * r) : ℚ) := by exact_mod_cast hm
  linarith

theorem mem_insertByDist {b x : CollEntry × ℚ} {l : List (CollEntry × ℚ)}
    (h : b ∈ insertByDist x l) : b = x ∨ b ∈ l := by
  induction l with
  | nil =>
    unfold insertByDist at h
    rcases List.mem_singleton.mp h with rfl
    exact Or.inl rfl
  | cons y t ih =>
    unfold insertByDist at h
    by_cases hcmp : y.2 ≤ x.2
    · rw [if_pos hcmp] at h
      rcases List.mem_cons.mp h with rfl | hbt
      · exact Or.inr (List.mem_cons_self _ _)
      · rcases ih hbt with rfl | hb
        · exact Or.inl rfl
        · exact Or.inr (List.mem_cons.mpr (Or.inr hb))
    · rw [if_neg hcmp] at h
      rcases List.mem_cons.mp h with rfl | hb
      · exact Or.inl rfl
      · exact Or.inr hb

theorem sorted_insertByDist (x : CollEntry × ℚ) {l : List (CollEntry × ℚ)}
    (h : List.Sorted (fun a b : CollEntry × ℚ => a.2 ≤ b.2) l) :
    List.Sorted (fun a b : CollEntry × ℚ => a.2 ≤ b.2) (insertByDist x l) := by
  induction l with
  | nil => simp [insertByDist]
  | cons y t ih =>
    rw [List.sorted_cons] at h
    obtain ⟨hy, ht⟩ := h
    unfold insertByDist
    by_cases hcmp : y.2 ≤ x.2
    · rw [if_pos hcmp]
      rw [List.sorted_cons]
      refine ⟨?_, ih ht⟩
      intro b hb
      rcases mem_insertByDist hb with rfl | hbt
      · exact hcmp
      · exact hy b hbt
    · rw [if_neg hcmp]
      rw [List.sorted_cons]
      refine ⟨?_, List.sorted_cons.mpr ⟨hy, ht⟩⟩
      intro b hb
      rcases List.mem_cons.mp hb with rfl | hbt
      · exact le_of_not_le hcmp
      · exact le_trans (le_of_not_le hcmp) (hy b hbt)

theorem sorted_sortByDist (l : List (CollEntry × ℚ)) :
    List.Sorted (fun a b : CollEntry × ℚ => a.2 ≤ b.2) (sortByDist l) := by
  induction l with
  | nil => simp [sortByDist]
  | cons x t ih => exact sorted_insertByDist x ih

theorem sorted_collQuery (dist : List ℚ → List ℚ → ℚ) (entries : List CollEntry)
    (query_embedding : List ℚ) (top_k : Nat) :
    List.Sorted (fun a b : CollEntry × ℚ => a.2 ≤ b.2)
      (collQuery dist entries query_embedding top_k) := by
  unfold collQuery
  exact List.Pairwise.sublist (List.take_sublist _ _) (sorted_sortByDist _)

/-- Claim C9: a query returns at most `top_k` converted rows; the ranked
result is ordered by ascending distance, equivalently the returned
similarity scores are non-increasing; and an empty collection yields an
empty result list rather than a failure. -/
theorem search_products_ranked (dist : List ℚ → List ℚ → ℚ)
    (entries : List CollEntry) (query_embedding : List ℚ) (top_k : Nat) :
    search_products dist [] query_embedding top_k = [] ∧
    (search_products dist entries query_embedding top_k).length ≤ top_k ∧
    List.Sorted (· ≤ ·)
      ((collQuery dist entries query_embedding top_k).map (fun r => r.2)) ∧
    List.Sorted (· ≥ ·)
      ((search_products dist entries query_embedding top_k).map Product.score) := by
  refine ⟨rfl, ?_, ?_, ?_⟩
  · by_cases he : entries.length = 0
    · simp [search_products, he]
    · simp only [search_products, if_neg he, List.length_map]
      unfold collQuery
      exact List.length_take_le _ _
  · exact List.pairwise_map.mpr (sorted_collQuery dist entries query_embedding top_k)
  · by_cases he : entries.length = 0
    · simp [search_products, he]
    · simp only [search_products, if_neg he, List.map_map]
      apply List.pairwise_map.mpr
      exact List.Pairwise.imp
        (fun {a b} hab => pyRound2_mono (show (1 : ℚ) - b.2 ≤ 1 - a.2 by linarith))
        (sorted_collQuery dist entries query_embedding top_k)

/-!
## Claim C6
-/

theorem dispatchCalls_ok (all_functions : Dict ToolFn) :
    ∀ (calls : List ToolCall) (st : AgentState),
      (∀ tc ∈ calls, callOk all_functions tc) →
      ∃ st', dispatchCalls all_functions calls st = .ok st' := by
  intro calls
  induction calls with
  | nil => exact fun st _ => ⟨st, rfl⟩
  | cons tc rest ih =>
    intro st h
    obtain ⟨r, hr⟩ := h tc (List.mem_cons_self _ _)
    obtain ⟨st', hst'⟩ :=
      ih ⟨st.messages ++ [toolMsg tc.id r], st.trace ++ [⟨tc.name, tc.args, r⟩]⟩
        (fun tc' htc' => h tc' (List.mem_cons.mpr (Or.inr htc')))
    refine ⟨st', ?_⟩
    simp only [dispatchCalls, hr]
    exact hst'

theorem agentLoop_ok (all_functions : Dict ToolFn) (responses : Nat → ModelResponse)
    (max_iterations : Nat) :
    ∀ (remaining i : Nat) (st : AgentState),
      (∀ j, i ≤ j → j < i + remaining → responseOk all_functions (responses j)) →
      ∃ answer st',
        agentLoop all_functions responses max_iterations i remaining st = .ok (answer, st') ∧
        (answer = sentinelMsg max_iterations ∨
          ∃ j, i ≤ j ∧ j < i + remaining ∧ (responses j).finish_reason = pyStr "stop" ∧
            answer = (responses j).content) := by
  intro remaining
  induction remaining with
  | zero => exact fun i st _ => ⟨_, st, rfl, Or.inl rfl⟩
  | succ n ih =>
    intro i st h
    by_cases hstop : (responses i).finish_reason = pyStr "stop"
    · refine ⟨(responses i).content, ⟨st.messages ++ [assistantMsg (responses i)], st.trace⟩,
        ?_, Or.inr ⟨i, le_refl i, by omega, hstop, rfl⟩⟩
      simp only [agentLoop, if_pos hstop]
    · by_cases htc : (responses i).finish_reason = pyStr "tool_calls"
      · obtain ⟨st2, hst2⟩ := dispatchCalls_ok all_functions (responses i).tool_calls
          ⟨st.messages ++ [assistantMsg (responses i)], st.trace⟩ (h i (le_refl i) (by omega))
        obtain ⟨a, st', ha, hcase⟩ := ih (i + 1) st2
          (fun j hj1 hj2 => h j (by omega) (by omega))
        refine ⟨a, st', ?_, ?_⟩
        · simp only [agentLoop, if_neg hstop, if_pos htc, hst2]
          exact ha
        · rcases hcase with hs | ⟨j, hj1, hj2, hjf, hja⟩
          · exact Or.inl hs
          · exact Or.inr ⟨j, by omega, by omega, hjf, hja⟩
      · obtain ⟨a, st', ha, hcase⟩ := ih (i + 1)
          ⟨st.messages ++ [assistantMsg (responses i)], st.trace⟩
          (fun j hj1 hj2 => h j (by omega) (by omega))
        refine ⟨a, st', ?_, ?_⟩
        · simp only [agentLoop, if_neg hstop, if_neg htc]
          exact ha
        · rcases hcase with hs | ⟨j, hj1, hj2, hjf, hja⟩
          · exact Or.inl hs
          · exact Or.inr ⟨j, by omega, by omega, hjf, hja⟩

theorem agentLoop_congr (all_functions : Dict ToolFn)
    (responses responses' : Nat → ModelResponse) (max_iterations : Nat) :
    ∀ (remaining i : Nat) (st : AgentState),
      (∀ j, i ≤ j → j < i + remaining → responses j = responses' j) →
      agentLoop all_functions responses max_iterations i remaining st =
        agentLoop all_functions responses' max_iterations i remaining st := by
  intro remaining
  induction remaining with
  | zero => exact fun i st _ => rfl
  | succ n ih =>
    intro i st h
    have hi : responses i = responses' i := h i (le_refl i) (by omega)
    by_cases hstop : (responses' i).finish_reason = pyStr "stop"
    · simp only [agentLoop, hi, if_pos hstop]
    · by_cases htc : (responses' i).finish_reason = pyStr "tool_calls"
      · simp only [agentLoop, hi, if_neg hstop, if_pos htc]
        cases hd : dispatchCalls all_functions (responses' i).tool_calls
            ⟨st.messages ++ [assistantMsg (responses' i)], st.trace⟩ with
        | error e => rfl
        | ok st2 => exact ih (i + 1) st2 (fun j hj1 hj2 => h j (by omega) (by omega))
      · simp only [agentLoop, hi, if_neg hstop, if_neg htc]
        exact ih (i + 1) _ (fun j hj1 hj2 => h j (by omega) (by omega))

/-- Claim C6 (amended): provided every tool call requested within the
first `max_iterations` responses dispatches successfully (its name is
registered and its arguments bind), `run_agent` returns without raising:
either a stop response's content or the exhaustion sentinel, and the
result depends only on the first `max_iterations` responses — at most
that many round trips are performed. -/
theorem run_agent_bounded (question : Str) (all_functions : Dict ToolFn)
    (responses : Nat → ModelResponse) (max_iterations : Nat)
    (h : ∀ i, i < max_iterations → responseOk all_functions (responses i)) :
    (∃ answer trace,
       run_agent question all_functions responses max_iterations = .ok (answer, trace) ∧
       (answer = sentinelMsg max_iterations ∨
         ∃ i, i < max_iterations ∧ (responses i).finish_reason = pyStr "stop" ∧
           answer = (responses i).content)) ∧
    (∀ responses' : Nat → ModelResponse,
       (∀ i, i < max_iterations → responses i = responses' i) →
       run_agent question all_functions responses max_iterations =
         run_agent question all_functions responses' max_iterations) := by
  constructor
  · obtain ⟨a, st', ha, hc⟩ := agentLoop_ok all_functions responses max_iterations
      max_iterations 0 (initState question) (fun j hj1 hj2 => h j (by omega))
    refine ⟨a, st'.trace, ?_, ?_⟩
    · unfold run_agent
      rw [ha]
    · rcases hc with hs | ⟨j, _, hj2, hjf, hja⟩
      · exact Or.inl hs
      · exact Or.inr ⟨j, by omega, hjf, hja⟩
  · intro responses' h'
    unfold run_agent
    rw [agentLoop_congr all_functions responses responses' max_iterations
      max_iterations 0 (initState question) (fun j hj1 hj2 => h' j (by omega))]

/-- Claim C6 witness: a model that stops immediately. -/
theorem run_agent_bounded_witness :
    ∃ answer trace,
      run_agent (pyStr "q") TOOL_FUNCTIONS (fun _ => stopResponse) DEFAULT_MAX_ITERATIONS =
        .ok (answer, trace) ∧
      (answer = sentinelMsg DEFAULT_MAX_ITERATIONS ∨
        ∃ i, i < DEFAULT_MAX_ITERATIONS ∧
          (stopResponse.finish_reason = pyStr "stop" ∧ answer = stopResponse.content)) :=
  (run_agent_bounded (pyStr "q") TOOL_FUNCTIONS (fun _ => stopResponse) DEFAULT_MAX_ITERATIONS
    (fun _ _ tc htc => absurd htc (List.not_mem_nil tc))).1

/-- Claim C6, as stated over *every* sequence of model responses, is
false on the code: a response requesting the unregistered tool name
`no_such_tool` makes `run_agent` raise `KeyError` out of the registry
lookup instead of returning an answer-and-trace pair or the sentinel. -/
theorem run_agent_unknown_tool_cex :
    run_agent (pyStr "q") TOOL_FUNCTIONS (fun _ => unknownToolResponse)
      DEFAULT_MAX_ITERATIONS = .error (.keyError (pyStr "no_such_tool")) := by decide

/-!
## Claim C7
-/

theorem dispatchCalls_zip (all_functions : Dict ToolFn) :
    ∀ (calls : List ToolCall) (st st' : AgentState),
      dispatchCalls all_functions calls st = .ok st' →
      ∃ results : List Str,
        results.length = calls.length ∧
        st'.messages = st.messages ++ List.zipWith (fun tc r => toolMsg tc.id r) calls results ∧
        st'.trace = st.trace ++
          List.zipWith (fun tc r => TraceEntry.mk tc.name tc.args r) calls results := by
  intro calls
  induction calls with
  | nil =>
    intro st st' h
    simp only [dispatchCalls] at h
    obtain rfl : st = st' := by
      injection h
    exact ⟨[], rfl, by simp, by simp⟩
  | cons tc rest ih =>
    intro st st' h
    simp only [dispatchCalls] at h
    cases hd : dispatchCall all_functions tc with
    | error e =>
      rw [hd] at h
      exact absurd h (by simp)
    | ok r =>
      rw [hd] at h
      obtain ⟨results, hlen, hmsg, htr⟩ := ih _ _ h
      refine ⟨r :: results, by simp [hlen], ?_, ?_⟩
      · rw [hmsg]
        simp [List.zipWith]
      · rw [htr]
        simp [List.zipWith]

theorem filter_zip_tool (calls : List ToolCall) (results : List Str) :
    ((List.zipWith (fun tc r => toolMsg tc.id r) calls results).filter
        (fun m => m.role == Role.tool)).map Message.content =
      (List.zipWith (fun tc r => TraceEntry.mk tc.name tc.args r) calls results).map
        TraceEntry.result := by
  induction calls generalizing results with
  | nil => rfl
  | cons tc rest ih =>
    cases results with
    | nil => rfl
    | cons r rs =>
      show ((toolMsg tc.id r ::
            List.zipWith (fun tc r => toolMsg tc.id r) rest rs).filter
          (fun m => m.role == Role.tool)).map Message.content =
        (TraceEntry.mk tc.name tc.args r ::
            List.zipWith (fun tc r => TraceEntry.mk tc.name tc.args r) rest rs).map
          TraceEntry.result
      rw [List.filter_cons_of_pos rfl]
      simp only [List.map]
      rw [ih rs]
      rfl

theorem agentLoop_inv (all_functions : Dict ToolFn) (responses : Nat → ModelResponse)
    (max_iterations : Nat) :
    ∀ (remaining i : Nat) (st : AgentState) (answer : Str) (st' : AgentState),
      agentLoop all_functions responses max_iterations i remaining st = .ok (answer, st') →
      (toolMessages st).map Message.content = st.trace.map TraceEntry.result →
      (toolMessages st').map Message.content = st'.trace.map TraceEntry.result := by
  intro remaining
  induction remaining with
  | zero =>
    intro i st answer st' h hinv
    simp only [agentLoop] at h
    obtain ⟨-, rfl⟩ : sentinelMsg max_iterations = answer ∧ st = st' := by
      injection h with h1
      injection h1 with h2 h3
      exact ⟨h2, h3⟩
    exact hinv
  | succ n ih =>
    intro i st answer st' h hinv
    have hasst : (toolMessages ⟨st.messages ++ [assistantMsg (responses i)], st.trace⟩).map
        Message.content = st.trace.map TraceEntry.result := by
      unfold toolMessages at hinv ⊢
      simp only [List.filter_append]
      rw [show (List.filter (fun m => m.role == Role.tool) [assistantMsg (responses i)]) =
        [] from rfl]
      simpa using hinv
    by_cases hstop : (responses i).finish_reason = pyStr "stop"
    · simp only [agentLoop, if_pos hstop] at h
      obtain ⟨-, rfl⟩ : (responses i).content = answer ∧
          (⟨st.messages ++ [assistantMsg (responses i)], st.trace⟩ : AgentState) = st' := by
        injection h with h1
        injection h1 with h2 h3
        exact ⟨h2, h3⟩
      exact hasst
    · by_cases htc : (responses i).finish_reason = pyStr "tool_calls"
      · simp only [agentLoop, if_neg hstop, if_pos htc] at h
        cases hd : dispatchCalls all_functions (responses i).tool_calls
            ⟨st.messages ++ [assistantMsg (responses i)], st.trace⟩ with
        | error e =>
          rw [hd] at h
          exact absurd h (by simp)
        | ok st2 =>
          rw [hd] at h
          refine ih (i + 1) st2 answer st' h ?_
          obtain ⟨results, -, hmsg, htr⟩ := dispatchCalls_zip all_functions _ _ _ hd
          unfold toolMessages at hasst ⊢
          rw [hmsg, htr]
          simp only [List.filter_append, List.map_append]
          rw [filter_zip_tool]
          congr 1
          simpa using hasst
      · simp only [agentLoop, if_neg hstop, if_neg htc] at h
        exact ih (i + 1) _ answer st' h hasst

/-- Claim C7: each successful dispatch block appends, per requested call
and in order, exactly one tool message tagged with that call's
identifier and exactly one trace record carrying the same result; and on
every completed run the tool messages of the final conversation
correspond 1:1 and in order to the trace entries (same contents), the
returned trace being exactly that of the final state. -/
theorem trace_one_to_one :
    (∀ (all_functions : Dict ToolFn) (calls : List ToolCall) (st st' : AgentState),
       dispatchCalls all_functions calls st = .ok st' →
       ∃ results : List Str,
         results.length = calls.length ∧
         st'.messages = st.messages ++
           List.zipWith (fun tc r => toolMsg tc.id r) calls results ∧
         st'.trace = st.trace ++
           List.zipWith (fun tc r => TraceEntry.mk tc.name tc.args r) calls results) ∧
    (∀ (question : Str) (all_functions : Dict ToolFn) (responses : Nat → ModelResponse)
       (max_iterations : Nat) (answer : Str) (st' : AgentState),
       agentLoop all_functions responses max_iterations 0 max_iterations
           (initState question) = .ok (answer, st') →
       (toolMessages st').map Message.content = st'.trace.map TraceEntry.result ∧
       run_agent question all_functions responses max_iterations = .ok (answer, st'.trace)) := by
  refine ⟨dispatchCalls_zip, ?_⟩
  intro question all_functions responses max_iterations answer st' h
  refine ⟨agentLoop_inv all_functions responses max_iterations max_iterations 0
    (initState question) answer st' h rfl, ?_⟩
  unfold run_agent
  rw [h]

/-- Claim C7 witness: the correspondence applied to the concrete
one-call dispatch and to the two-iteration `oneCallThenStop` run. -/
theorem trace_one_to_one_witness :
    (∃ results : List Str,
       results.length = eligibilityCallResponse.tool_calls.length ∧
       exDispatchState.messages = (initState (pyStr "q")).messages ++
         List.zipWith (fun tc r => toolMsg tc.id r)
           eligibilityCallResponse.tool_calls results ∧
       exDispatchState.trace = (initState (pyStr "q")).trace ++
         List.zipWith (fun tc r => TraceEntry.mk tc.name tc.args r)
           eligibilityCallResponse.tool_calls results) ∧
    ((toolMessages exFinalState).map Message.content =
        exFinalState.trace.map TraceEntry.result ∧
      run_agent (pyStr "q") TOOL_FUNCTIONS oneCallThenStop 2 =
        .ok (pyStr "All done.", exFinalState.trace)) :=
  ⟨trace_one_to_one.1 TOOL_FUNCTIONS eligibilityCallResponse.tool_calls
      (initState (pyStr "q")) exDispatchState (by decide),
   trace_one_to_one.2 (pyStr "q") TOOL_FUNCTIONS oneCallThenStop 2
      (pyStr "All done.") exFinalState (by decide)⟩
